import Mathlib

/-!
# MLB Pitcher Analysis Tools — verification of spec claims

Shallow embedding of the analytics code of the repository
`JonnyMurillo288/MLB_Pitcher_Analysis_Tools`.

The repository ships a React/TypeScript frontend (under `src/frontend` and the
unnamed source parts) and a FastAPI backend whose computation module
(`backend/compute.py`) is not part of the provided sources.  Definitions taken
from the TypeScript sources are annotated with their source location; the
missing backend computations are modelled from the specification and carry a
doc comment starting with "Modelled from the spec:".

Numbers are embedded as rationals (`ℚ`); JavaScript `null` becomes `Option`.
-/

namespace MLB

/-! ## Frontend: trend averaging (part_003 `trendAvgTraces`, part_004 `OutcomeStats`)

Both places compute, for a list of nullable per-game values,
`validVals = vals.filter(v => v !== null)` and
`avg = validVals.length ? validVals.reduce((a,b) => a+b, 0) / validVals.length : null`. -/

/-- Embedding of the average computed in `trendAvgTraces` (src/unnamed/part_003,
lines 177-190) and in the per-outcome `avg` of `OutcomeStats`
(src/unnamed/part_004, lines 155-159): the mean of the non-null values, and
`null` when there is no non-null value. -/
def trendAvg (vals : List (Option ℚ)) : Option ℚ :=
  let valid := vals.filterMap id
  if valid.length = 0 then none
  else some (valid.sum / (valid.length : ℚ))

/-! ## Frontend: MetricCard (src/unnamed/part_002, lines 417-477) -/

/-- Embedding of the `delta` computation of `MetricCard`
(src/unnamed/part_002, lines 440-443):
`today !== null && trend !== null ? today - trend : null`.
(The JavaScript code additionally guards against `NaN`; rationals have no
`NaN`, so the guard is vacuous here.) -/
def metricDelta (today trend : Option ℚ) : Option ℚ :=
  match today, trend with
  | some t, some a => some (t - a)
  | _, _ => none

/-- Badge colors used by `MetricCard` (src/unnamed/part_002, lines 445-452). -/
inductive BadgeColor
  | gray
  | green
  | red
  deriving DecidableEq, Repr

/-- Embedding of the good/bad classification of `MetricCard`
(src/unnamed/part_002, lines 446-448):
`positive = delta > 0; good = higherIsBetter ? positive : !positive`. -/
def deltaGood (higherIsBetter : Bool) (delta : ℚ) : Bool :=
  let positive := decide (0 < delta)
  if higherIsBetter then positive else !positive

/-- Embedding of the badge color of `MetricCard`
(src/unnamed/part_002, lines 445-452): gray when `delta` is null, otherwise
green when good and red when bad. -/
def badgeColor (higherIsBetter : Bool) (delta : Option ℚ) : BadgeColor :=
  match delta with
  | none => .gray
  | some d => if deltaGood higherIsBetter d then .green else .red

/-! ## Frontend: sort comparators

`GameLog` (src/frontend/src/components/tabs/CustomDashboard.tsx, lines 211-225)
and `sortedPitchers` of the league table (src/unnamed/part_005, lines 558-576)
sort rows with structurally identical comparators:

```
const mult = dir === "asc" ? 1 : -1;
if (av == null && bv == null) return 0;
if (av == null) return mult;
if (bv == null) return -mult;
if (typeof av === "string") return mult * av.localeCompare(bv);
return mult * (av - bv);
```

The two non-null branches (locale-dependent string comparison, numeric
subtraction) are abstracted into a parameter `nn`; the null handling is
embedded verbatim. -/

/-- Sort direction of the table columns. -/
inductive SortDir
  | asc
  | desc
  deriving DecidableEq, Repr

/-- `const mult = dir === "asc" ? 1 : -1` (CustomDashboard.tsx line 215,
part_005 line 557). -/
def sortMult : SortDir → ℚ
  | .asc => 1
  | .desc => -1

/-- Embedding of the `GameLog` sort comparator
(src/frontend/src/components/tabs/CustomDashboard.tsx, lines 216-224).
`nn` stands for the comparison applied when both keys are non-null
(`localeCompare` for strings, subtraction for numbers). -/
def gameLogCompare {α : Type} (nn : α → α → ℚ) (dir : SortDir)
    (av bv : Option α) : ℚ :=
  match av, bv with
  | none, none => 0
  | none, some _ => sortMult dir
  | some _, none => -(sortMult dir)
  | some a, some b => sortMult dir * nn a b

/-- Embedding of the `sortedPitchers` comparator of the league table
(src/unnamed/part_005, lines 558-576); its null handling is identical to
`GameLog`. -/
def leagueTableCompare {α : Type} (nn : α → α → ℚ) (dir : SortDir)
    (av bv : Option α) : ℚ :=
  match av, bv with
  | none, none => 0
  | none, some _ => sortMult dir
  | some _, none => -(sortMult dir)
  | some a, some b => sortMult dir * nn a b

/-! ## Core: error taxonomy (spec section 7)

The analytics core lives in `backend/compute.py`, which is not among the
provided sources; the definitions below are modelled from the specification. -/

/-- Modelled from the spec: the error taxonomy of the core
(`DataNotFoundError`, `InvalidWindowError`, `InsufficientDataError`,
`SingularMatrixError`); `backend/compute.py` is missing from the sources. -/
inductive CoreError
  | dataNotFound
  | invalidWindow
  | insufficientData
  | singularMatrix
  deriving DecidableEq, Repr

/-! ## Core: FeatureMatrixBuilder (spec section 4.4)

Per-predictor lag transforms over a date-ordered column of per-game raw
values, complete-case row dropping, and the minimum-row check that guards the
regression. -/

/-- Modelled from the spec: the tagged union of per-predictor lag
configurations, `{None, PointLag(n), RollingMean(n)}`; `backend/compute.py`
is missing from the sources. -/
inductive LagKind
  | noLag
  | pointLag (n : ℕ)
  | rollingMean (n : ℕ)
  deriving DecidableEq, Repr

/-- The number of leading rows a lag configuration turns into null: 0 for
`None`, `n` for `PointLag(n)` and for `RollingMean(n)` (the rolling window
covers rows `[i-n, i-1]`, so the first `n` rows have no full window). -/
def lagAmount : LagKind → ℕ
  | .noLag => 0
  | .pointLag n => n
  | .rollingMean n => n

/-- Modelled from the spec: the transformed value of one predictor column at
row `i` (`backend/compute.py` is missing from the sources).
`None` keeps the raw value; `PointLag(n)` takes the raw value at row `i-n`
and nulls the first `n` rows; `RollingMean(n)` takes the mean of the raw
values at rows `i-n` through `i-1` — strictly prior games — and nulls rows
without a full prior window. -/
def transAt : LagKind → List ℚ → ℕ → Option ℚ
  | .noLag, xs, i => xs.get? i
  | .pointLag n, xs, i => if n ≤ i then xs.get? (i - n) else none
  | .rollingMean n, xs, i =>
      if n ≤ i ∧ i ≤ xs.length then
        some ((∑ j ∈ Finset.range n, xs.getD (i - n + j) 0) / (n : ℚ))
      else none

/-- A regression request: the dependent-variable column and, per predictor,
its lag configuration and raw column, all date-ordered with one value per
game. -/
structure FeatureRequest where
  y : List ℚ
  preds : List (LagKind × List ℚ)

/-- Complete-case policy: row `i` survives iff every transformed predictor is
non-null there (the dependent column is non-null by construction). -/
def keepRow (req : FeatureRequest) (i : ℕ) : Bool :=
  req.preds.all fun p => (transAt p.1 p.2 i).isSome

/-- The indices of the rows surviving lag trimming. -/
def completeIdx (req : FeatureRequest) : List ℕ :=
  (List.range req.y.length).filter (keepRow req)

/-- The complete-case row count surviving lag trimming. -/
def survivors (req : FeatureRequest) : ℕ :=
  (completeIdx req).length

/-- One surviving feature-matrix row: dependent value and transformed
predictor values at row `i`. -/
def featureRow (req : FeatureRequest) (i : ℕ) : ℚ × List ℚ :=
  (req.y.getD i 0, req.preds.map fun p => (transAt p.1 p.2 i).getD 0)

/-- The maximum configured lag/window across all predictors. -/
def maxLagOf (preds : List (LagKind × List ℚ)) : ℕ :=
  preds.foldr (fun p acc => max (lagAmount p.1) acc) 0

/-- Modelled from the spec: FeatureMatrixBuilder output
(`backend/compute.py` is missing from the sources) — the surviving
complete-case rows, or `InsufficientDataError` when fewer than
`predictor_count + 2` rows survive.  The regression engine runs only on the
`ok` result, so the failure happens before any fitting. -/
def buildFeatureMatrix (req : FeatureRequest) :
    Except CoreError (List (ℚ × List ℚ)) :=
  if survivors req < req.preds.length + 2 then .error .insufficientData
  else .ok ((completeIdx req).map (featureRow req))

/-! Helper lemmas about the transforms. -/

theorem transAt_isSome_iff (k : LagKind) (xs : List ℚ) (i : ℕ)
    (hi : i < xs.length) : (transAt k xs i).isSome ↔ lagAmount k ≤ i := by
  cases k with
  | noLag =>
      simp only [transAt, lagAmount, Nat.zero_le, iff_true]
      rw [List.get?_eq_getElem?, List.getElem?_eq_getElem hi]
      rfl
  | pointLag n =>
      simp only [transAt, lagAmount]
      by_cases hn : n ≤ i
      · simp only [hn, if_true, iff_true]
        have hsub : i - n < xs.length := lt_of_le_of_lt (Nat.sub_le i n) hi
        rw [List.get?_eq_getElem?, List.getElem?_eq_getElem hsub]
        rfl
      · simp [hn]
  | rollingMean n =>
      simp only [transAt, lagAmount]
      by_cases hn : n ≤ i
      · simp [hn, le_of_lt hi]
      · simp [hn]

theorem maxLagOf_le_iff (ps : List (LagKind × List ℚ)) (i : ℕ) :
    maxLagOf ps ≤ i ↔ ∀ p ∈ ps, lagAmount p.1 ≤ i := by
  unfold maxLagOf
  induction ps with
  | nil => simp
  | cons p ps ih =>
      simp only [List.foldr_cons, Nat.max_le, List.mem_cons]
      constructor
      · rintro ⟨h1, h2⟩ q hq
        rcases hq with rfl | hq
        · exact h1
        · exact ih.mp h2 q hq
      · intro h
        exact ⟨h p (Or.inl rfl), ih.mpr fun q hq => h q (Or.inr hq)⟩

theorem keepRow_iff (req : FeatureRequest)
    (hlen : ∀ p ∈ req.preds, (p.2 : List ℚ).length = req.y.length)
    (i : ℕ) (hi : i < req.y.length) :
    keepRow req i = decide (maxLagOf req.preds ≤ i) := by
  have h : keepRow req i = true ↔ maxLagOf req.preds ≤ i := by
    unfold keepRow
    rw [List.all_eq_true, maxLagOf_le_iff]
    constructor
    · intro h p hp
      have hip : i < p.2.length := by rw [hlen p hp]; exact hi
      exact (transAt_isSome_iff p.1 p.2 i hip).mp (h p hp)
    · intro h p hp
      have hip : i < p.2.length := by rw [hlen p hp]; exact hi
      exact (transAt_isSome_iff p.1 p.2 i hip).mpr (h p hp)
  by_cases hk : keepRow req i
  · simp [hk, h.mp hk]
  · have hnot : ¬ maxLagOf req.preds ≤ i := fun hle => hk (h.mpr hle)
    simp [Bool.eq_false_iff.mpr hk, hnot]

theorem filter_range_ge_length (g m : ℕ) :
    ((List.range g).filter (fun i => decide (m ≤ i))).length = g - m := by
  induction g with
  | zero => simp
  | succ g ih =>
      rw [List.range_succ, List.filter_append, List.length_append, ih]
      by_cases hm : m ≤ g
      · simp [hm, Nat.succ_sub hm]
      · have h1 : g + 1 - m = 0 := by omega
        have h2 : g - m = 0 := by omega
        simp [hm, h1, h2]

theorem survivors_eq (req : FeatureRequest)
    (hlen : ∀ p ∈ req.preds, (p.2 : List ℚ).length = req.y.length) :
    survivors req = req.y.length - maxLagOf req.preds := by
  unfold survivors completeIdx
  rw [List.filter_congr (fun i hi =>
    keepRow_iff req hlen i (List.mem_range.mp hi))]
  exact filter_range_ge_length req.y.length (maxLagOf req.preds)

theorem getD_set_ne (l : List ℚ) (a d : ℚ) {i j : ℕ} (h : i ≠ j) :
    (l.set i a).getD j d = l.getD j d := by
  rw [List.getD_eq_getElem?_getD, List.getD_eq_getElem?_getD,
    List.getElem?_set_ne h]

theorem getD_set_self (l : List ℚ) (a d : ℚ) {i : ℕ} (h : i < l.length) :
    (l.set i a).getD i d = a := by
  rw [List.getD_eq_getElem?_getD, List.getElem?_set_eq_of_lt a h]
  rfl

/-! ## Theorems for the FeatureMatrixBuilder claims -/

/-- Claim C1: a `RollingMean(n)` predictor at row `i` equals the mean of the
raw values at rows `i-n` through `i-1` only — strictly prior games.  It does
not depend on row `i`'s own raw value: mutating row `i`'s raw input leaves the
transformed value at row `i` unchanged, while it changes the transformed value
at row `i+1`. -/
theorem C1_rollingMean_leakage_safe (n i : ℕ) (xs : List ℚ) (v : ℚ)
    (hn : 1 ≤ n) (hi : n ≤ i) (hlt : i < xs.length) (hv : v ≠ xs.getD i 0) :
    transAt (.rollingMean n) xs i
        = some ((∑ j ∈ Finset.range n, xs.getD (i - n + j) 0) / (n : ℚ))
    ∧ transAt (.rollingMean n) (xs.set i v) i = transAt (.rollingMean n) xs i
    ∧ transAt (.rollingMean n) (xs.set i v) (i + 1)
        ≠ transAt (.rollingMean n) xs (i + 1) := by
  have hn0 : (n : ℚ) ≠ 0 := Nat.cast_ne_zero.mpr (by omega)
  have hset_len : (xs.set i v).length = xs.length := List.length_set xs i v
  refine ⟨?_, ?_, ?_⟩
  · simp [transAt, hi, le_of_lt hlt]
  · simp only [transAt, hset_len]
    have hsum : ∑ j ∈ Finset.range n, (xs.set i v).getD (i - n + j) 0
        = ∑ j ∈ Finset.range n, xs.getD (i - n + j) 0 := by
      refine Finset.sum_congr rfl fun j hj => ?_
      have hj' : j < n := Finset.mem_range.mp hj
      exact getD_set_ne xs v 0 (by omega)
    rw [hsum]
  · obtain ⟨m, rfl⟩ : ∃ m, n = m + 1 := ⟨n - 1, by omega⟩
    have hc1 : m + 1 ≤ i + 1 := by omega
    have hc2 : i + 1 ≤ xs.length := hlt
    have hc2s : i + 1 ≤ (xs.set i v).length := by rw [hset_len]; exact hc2
    simp only [transAt, hset_len]
    rw [if_pos ⟨hc1, hc2⟩, if_pos ⟨hc1, hc2⟩]
    intro heq
    rw [Option.some.injEq] at heq
    have hSS := (div_left_inj' hn0).mp heq
    rw [Finset.sum_range_succ, Finset.sum_range_succ] at hSS
    have hlast : i + 1 - (m + 1) + m = i := by omega
    have hrest : ∑ j ∈ Finset.range m, (xs.set i v).getD (i + 1 - (m + 1) + j) 0
        = ∑ j ∈ Finset.range m, xs.getD (i + 1 - (m + 1) + j) 0 := by
      refine Finset.sum_congr rfl fun j hj => ?_
      have hj' : j < m := Finset.mem_range.mp hj
      exact getD_set_ne xs v 0 (by omega)
    rw [hrest, hlast, getD_set_self xs v 0 hlt] at hSS
    exact hv (add_left_cancel hSS)

/-- Witness for C1 with `RollingMean(1)` over the column `[1, 2, 3]`, mutating
row 1 to the value 5: row 1's transformed value is unchanged, row 2's transformed
value changes. -/
theorem C1_witness :
    transAt (.rollingMean 1) (([1, 2, 3] : List ℚ).set 1 5) 1
        = transAt (.rollingMean 1) ([1, 2, 3] : List ℚ) 1
    ∧ transAt (.rollingMean 1) (([1, 2, 3] : List ℚ).set 1 5) 2
        ≠ transAt (.rollingMean 1) ([1, 2, 3] : List ℚ) 2 :=
  ⟨(C1_rollingMean_leakage_safe 1 1 [1, 2, 3] 5 (by decide) (by decide)
      (by decide) (by decide)).2.1,
   (C1_rollingMean_leakage_safe 1 1 [1, 2, 3] 5 (by decide) (by decide)
      (by decide) (by decide)).2.2⟩

/-- Claim C4: the regression request fails with `InsufficientDataError` —
before any fitting — exactly when the complete-case row count surviving lag
trimming is below `predictor_count + 2`; at exactly `predictor_count + 2`
surviving rows it succeeds; and on gap-free per-game data the surviving row
count is the number of games minus the maximum configured lag/window. -/
theorem C4_insufficient_data_guard (req : FeatureRequest) :
    (survivors req < req.preds.length + 2 →
      buildFeatureMatrix req = .error .insufficientData
      ∧ ∀ {β : Type} (fit : List (ℚ × List ℚ) → Except CoreError β),
          (buildFeatureMatrix req).bind fit = .error .insufficientData)
    ∧ (survivors req = req.preds.length + 2 →
        buildFeatureMatrix req = .ok ((completeIdx req).map (featureRow req)))
    ∧ ((∀ p ∈ req.preds, (p.2 : List ℚ).length = req.y.length) →
        survivors req = req.y.length - maxLagOf req.preds) := by
  refine ⟨fun h => ?_, fun h => ?_, survivors_eq req⟩
  · unfold buildFeatureMatrix
    rw [if_pos h]
    exact ⟨rfl, fun fit => rfl⟩
  · unfold buildFeatureMatrix
    rw [if_neg (by omega)]

/-- Witness for C4: three `PointLag(1)` predictors over 4 games leave 3 rows,
below the required 5, so the build fails; one `PointLag(2)` predictor over
5 games leaves exactly 3 = 1 + 2 rows, the boundary, and the build succeeds
with 5 − 2 surviving rows. -/
theorem C4_witness :
    buildFeatureMatrix ⟨[1, 2, 3, 4],
        [(.pointLag 1, [1, 2, 3, 4]), (.pointLag 1, [2, 3, 4, 5]),
         (.pointLag 1, [0, 1, 2, 3])]⟩ = .error .insufficientData
    ∧ buildFeatureMatrix ⟨[1, 2, 3, 4, 5], [(.pointLag 2, [1, 2, 3, 4, 5])]⟩
        = .ok ((completeIdx ⟨[1, 2, 3, 4, 5],
            [(.pointLag 2, [1, 2, 3, 4, 5])]⟩).map
          (featureRow ⟨[1, 2, 3, 4, 5], [(.pointLag 2, [1, 2, 3, 4, 5])]⟩))
    ∧ survivors ⟨[1, 2, 3, 4, 5], [(.pointLag 2, [1, 2, 3, 4, 5])]⟩ = 5 - 2 :=
  ⟨((C4_insufficient_data_guard ⟨[1, 2, 3, 4],
      [(.pointLag 1, [1, 2, 3, 4]), (.pointLag 1, [2, 3, 4, 5]),
       (.pointLag 1, [0, 1, 2, 3])]⟩).1 (by decide)).1,
   (C4_insufficient_data_guard ⟨[1, 2, 3, 4, 5],
      [(.pointLag 2, [1, 2, 3, 4, 5])]⟩).2.1 (by decide),
   (C4_insufficient_data_guard ⟨[1, 2, 3, 4, 5],
      [(.pointLag 2, [1, 2, 3, 4, 5])]⟩).2.2 (by decide)⟩

/-! ## Core: MetricAggregator (spec sections 3 and 4.1) -/

/-- Modelled from the spec: one pitch-level record as the core reads it
(`backend/compute.py` is missing from the sources).  Dates are day numbers;
metric readings are nullable; the outcome descriptors are the per-pitch facts
the outcome rates count. -/
structure PitchEvent where
  gameDate : ℕ
  pitchType : String
  velocity : Option ℚ
  spinRate : Option ℚ
  extension : Option ℚ
  breakX : Option ℚ
  breakZ : Option ℚ
  releasePosX : Option ℚ
  releasePosZ : Option ℚ
  exitVelo : Option ℚ
  isBallInPlay : Bool
  isGroundBall : Bool
  isFlyBall : Bool
  isSwing : Bool
  isSwingingStrike : Bool
  isOutOfZone : Bool
  isWalk : Bool
  isStrikeout : Bool
  recordedOuts : ℕ
  deriving DecidableEq, Repr

/-- Modelled from the spec: division whose zero-denominator case yields null
instead of raising, so aggregation always completes. -/
def safeDiv (a b : ℚ) : Option ℚ :=
  if b = 0 then none else some (a / b)

/-- The number of events satisfying a per-pitch predicate. -/
def countP (evs : List PitchEvent) (p : PitchEvent → Bool) : ℕ :=
  (evs.filter p).length

/-- Modelled from the spec: the mean of the non-null readings, null when
there is none. -/
def metricMean (vals : List (Option ℚ)) : Option ℚ :=
  let v := vals.filterMap id
  if v.length = 0 then none
  else some (v.sum / (v.length : ℚ))

/-- The nullable outcome-rate statistics of one game (spec `OutcomeAgg`). -/
structure OutcomeAgg where
  exit_velo : Option ℚ
  gb_pct : Option ℚ
  fb_pct : Option ℚ
  bb_9 : Option ℚ
  k_9 : Option ℚ
  whiff_pct : Option ℚ
  swstr_pct : Option ℚ
  chase_pct : Option ℚ
  deriving DecidableEq, Repr

/-- Modelled from the spec (4.1): the outcome rates of one game's events.
GB% and FB% divide by balls in play; BB/9 and K/9 divide by innings pitched
estimated as recorded outs over three; Whiff% divides by swings; SwStr% by
all pitches; Chase% by out-of-zone pitches.  Every division is null-safe. -/
def outcomeAgg (evs : List PitchEvent) : OutcomeAgg :=
  let bip : ℚ := (countP evs (·.isBallInPlay) : ℕ)
  let ip : ℚ := (((evs.map (·.recordedOuts)).sum : ℕ) : ℚ) / 3
  { exit_velo := metricMean ((evs.filter (·.isBallInPlay)).map (·.exitVelo))
    gb_pct := safeDiv (countP evs (·.isGroundBall) : ℕ) bip
    fb_pct := safeDiv (countP evs (·.isFlyBall) : ℕ) bip
    bb_9 := safeDiv (9 * (countP evs (·.isWalk) : ℕ)) ip
    k_9 := safeDiv (9 * (countP evs (·.isStrikeout) : ℕ)) ip
    whiff_pct := safeDiv (countP evs (·.isSwingingStrike) : ℕ)
      (countP evs (·.isSwing) : ℕ)
    swstr_pct := safeDiv (countP evs (·.isSwingingStrike) : ℕ)
      (evs.length : ℕ)
    chase_pct := safeDiv (countP evs (fun e => e.isOutOfZone && e.isSwing) : ℕ)
      (countP evs (·.isOutOfZone) : ℕ) }

/-- Modelled from the spec (4.1): per pitch-type metric mean — the mean of
the readings of that game's pitches of that type, null if there are no such
pitches (or no readings). -/
def pitchTypeMetric (evs : List PitchEvent) (t : String)
    (f : PitchEvent → Option ℚ) : Option ℚ :=
  metricMean ((evs.filter (·.pitchType == t)).map f)

/-- A per-game aggregate record (spec `GameAggregate`), keyed by game date. -/
structure GameAggregate where
  date : ℕ
  season : ℕ
  outcomes : OutcomeAgg
  deriving DecidableEq, Repr

/-- The distinct game dates of an event sequence, ascending. -/
def gameDates (evs : List PitchEvent) : List ℕ :=
  List.insertionSort (· ≤ ·) (evs.map (·.gameDate)).dedup

/-- Modelled from the spec (4.1): MetricAggregator — one aggregate per
distinct game date present, ascending (`backend/compute.py` is missing from
the sources). -/
def aggregate (season : ℕ) (evs : List PitchEvent) : List GameAggregate :=
  (gameDates evs).map fun d =>
    { date := d
      season := season
      outcomes := outcomeAgg (evs.filter (·.gameDate == d)) }

/-! ## Core: TrendComparator (spec section 4.2) -/

/-- Modelled from the spec: the trend-window value object. -/
inductive TrendWindow
  | rolling (nDays : ℕ)
  | fullSeason (season : ℕ)
  deriving DecidableEq, Repr

/-- The comparator's output row (spec `ComparisonRow`). -/
structure ComparisonRow where
  metric : String
  today : Option ℚ
  trend_avg : Option ℚ
  delta : Option ℚ
  deriving DecidableEq, Repr

/-- The outcome metrics a comparison reports, with their projections. -/
def outcomeFields : List (String × (OutcomeAgg → Option ℚ)) :=
  [("exit_velo", OutcomeAgg.exit_velo), ("gb_pct", OutcomeAgg.gb_pct),
   ("fb_pct", OutcomeAgg.fb_pct), ("bb_9", OutcomeAgg.bb_9),
   ("k_9", OutcomeAgg.k_9), ("whiff_pct", OutcomeAgg.whiff_pct),
   ("swstr_pct", OutcomeAgg.swstr_pct), ("chase_pct", OutcomeAgg.chase_pct)]

/-- Modelled from the spec (4.2): baseline selection — for `Rolling n` the
aggregates with date in `[target - n, target)` (the target date excluded),
for `FullSeason s` the aggregates of that season. -/
def baselineAggs (aggs : List GameAggregate) (target : ℕ) :
    TrendWindow → List GameAggregate
  | .rolling n => aggs.filter fun a =>
      decide (target - n ≤ a.date) && decide (a.date < target)
  | .fullSeason s => aggs.filter fun a => a.season == s

/-- Modelled from the spec (4.2): one comparison row per outcome metric —
today's value from the target aggregate, the trend average as the non-null
baseline mean, and the null-safe delta. -/
def comparisonRows (ta : GameAggregate) (base : List GameAggregate) :
    List ComparisonRow :=
  outcomeFields.map fun f =>
    let today := f.2 ta.outcomes
    let avg := trendAvg (base.map fun a => f.2 a.outcomes)
    { metric := f.1, today := today, trend_avg := avg
      delta := metricDelta today avg }

/-- Modelled from the spec (4.2): TrendComparator — fails with
`DataNotFoundError` when the target date is absent from the aggregate
sequence, and otherwise compares the single aggregate at the target date
against the baseline (`backend/compute.py` is missing from the sources). -/
def compareTrend (aggs : List GameAggregate) (target : ℕ) (w : TrendWindow) :
    Except CoreError (List ComparisonRow) :=
  match aggs.find? (fun a => a.date == target) with
  | none => .error .dataNotFound
  | some ta => .ok (comparisonRows ta (baselineAggs aggs target w))

theorem find?_eq_of_key_nodup {α β : Type} [DecidableEq β] (key : α → β)
    (l : List α) (t : β) (a : α) (ha : a ∈ l) (hk : key a = t)
    (hnd : (l.map key).Nodup) : l.find? (fun x => key x == t) = some a := by
  induction l with
  | nil => cases ha
  | cons b l ih =>
      rw [List.map_cons, List.nodup_cons] at hnd
      rcases List.mem_cons.mp ha with rfl | ha2
      · exact List.find?_cons_of_pos l (by simp [hk])
      · have hbt : ¬ (key b == t) = true := by
          simp only [beq_iff_eq]
          intro hbt
          exact hnd.1 (hbt ▸ hk ▸ List.mem_map_of_mem key ha2)
        rw [List.find?_cons_of_neg l hbt]
        exact ih ha2 hnd.2

/-! ## Theorems for the aggregator and comparator claims -/

/-- Claim C5: aggregation is a total function — it returns one aggregate per
distinct game date — and every outcome rate or per-pitch-type metric mean
whose denominator is zero (zero balls in play, zero innings pitched, zero
swings, zero pitches, zero out-of-zone pitches, zero pitches of a type)
yields null instead of an error. -/
theorem C5_aggregation_null_safe (season : ℕ) (evs : List PitchEvent)
    (t : String) :
    (aggregate season evs).length = (gameDates evs).length
    ∧ (countP evs (·.isBallInPlay) = 0 →
        (outcomeAgg evs).gb_pct = none ∧ (outcomeAgg evs).fb_pct = none
        ∧ (outcomeAgg evs).exit_velo = none)
    ∧ ((evs.map (·.recordedOuts)).sum = 0 →
        (outcomeAgg evs).bb_9 = none ∧ (outcomeAgg evs).k_9 = none)
    ∧ (countP evs (·.isSwing) = 0 → (outcomeAgg evs).whiff_pct = none)
    ∧ (evs = [] → (outcomeAgg evs).swstr_pct = none)
    ∧ (countP evs (·.isOutOfZone) = 0 → (outcomeAgg evs).chase_pct = none)
    ∧ (countP evs (·.pitchType == t) = 0 →
        pitchTypeMetric evs t (·.velocity) = none) := by
  refine ⟨by simp [aggregate], fun h => ⟨?_, ?_, ?_⟩, fun h => ⟨?_, ?_⟩,
    fun h => ?_, fun h => ?_, fun h => ?_, fun h => ?_⟩
  · simp [outcomeAgg, safeDiv, h]
  · simp [outcomeAgg, safeDiv, h]
  · have hnil : evs.filter (·.isBallInPlay) = [] :=
      List.length_eq_zero.mp h
    simp [outcomeAgg, hnil, metricMean]
  · simp [outcomeAgg, safeDiv, h]
  · simp [outcomeAgg, safeDiv, h]
  · simp [outcomeAgg, safeDiv, h]
  · simp [outcomeAgg, safeDiv, h]
  · have hnil : countP evs (·.isOutOfZone) = 0 := h
    simp [outcomeAgg, safeDiv, hnil]
  · have hnil : evs.filter (·.pitchType == t) = [] :=
      List.length_eq_zero.mp h
    simp [pitchTypeMetric, hnil, metricMean]

/-- Witness for C5 on the empty event sequence (every denominator zero):
aggregation yields the empty aggregate list and every rate is null. -/
theorem C5_witness :
    (aggregate 2024 []).length = (gameDates []).length
    ∧ (outcomeAgg []).gb_pct = none
    ∧ (outcomeAgg []).bb_9 = none
    ∧ (outcomeAgg []).whiff_pct = none
    ∧ (outcomeAgg []).swstr_pct = none
    ∧ (outcomeAgg []).chase_pct = none
    ∧ pitchTypeMetric [] "FF" (·.velocity) = none :=
  ⟨(C5_aggregation_null_safe 2024 [] "FF").1,
   ((C5_aggregation_null_safe 2024 [] "FF").2.1 rfl).1,
   ((C5_aggregation_null_safe 2024 [] "FF").2.2.1 rfl).1,
   (C5_aggregation_null_safe 2024 [] "FF").2.2.2.1 rfl,
   (C5_aggregation_null_safe 2024 [] "FF").2.2.2.2.1 rfl,
   (C5_aggregation_null_safe 2024 [] "FF").2.2.2.2.2.1 rfl,
   (C5_aggregation_null_safe 2024 [] "FF").2.2.2.2.2.2 rfl⟩

/-- Claim C6: TrendComparator fails with `DataNotFoundError` exactly when the
target date is absent from the aggregate sequence; when present (dates are
unique per the GameAggregate invariant), the comparison is built from the
single aggregate at that date, so every today value is that aggregate's
value. -/
theorem C6_target_date_lookup (aggs : List GameAggregate) (target : ℕ)
    (w : TrendWindow) :
    (compareTrend aggs target w = .error .dataNotFound ↔
      ∀ a ∈ aggs, a.date ≠ target)
    ∧ (∀ a ∈ aggs, a.date = target → (aggs.map GameAggregate.date).Nodup →
        compareTrend aggs target w
          = .ok (comparisonRows a (baselineAggs aggs target w))) := by
  constructor
  · unfold compareTrend
    cases hfind : aggs.find? (fun a => a.date == target) with
    | none =>
        simp only [true_iff]
        rw [List.find?_eq_none] at hfind
        intro a ha
        have := hfind a ha
        simpa using this
    | some ta =>
        simp only [reduceCtorEq, false_iff, not_forall]
        have hmem : ta ∈ aggs := List.mem_of_find?_eq_some hfind
        have hdate : ta.date = target := by
          have := List.find?_some hfind
          simpa using this
        exact ⟨ta, hmem, by simp [hdate]⟩
  · intro a ha hk hnd
    unfold compareTrend
    rw [find?_eq_of_key_nodup GameAggregate.date aggs target a ha hk hnd]

/-- Witness for C6: a two-game aggregate sequence with unique dates 5 and 7;
target 7 is found and compared, while an empty sequence fails with
`DataNotFoundError`. -/
theorem C6_witness :
    compareTrend
        [⟨5, 2024, ⟨none, none, none, none, none, none, none, none⟩⟩,
         ⟨7, 2024, ⟨none, none, none, none, none, none, none, none⟩⟩]
        7 (.rolling 3)
      = .ok (comparisonRows
          ⟨7, 2024, ⟨none, none, none, none, none, none, none, none⟩⟩
          (baselineAggs
            [⟨5, 2024, ⟨none, none, none, none, none, none, none, none⟩⟩,
             ⟨7, 2024, ⟨none, none, none, none, none, none, none, none⟩⟩]
            7 (.rolling 3)))
    ∧ compareTrend [] 7 (.rolling 3) = .error .dataNotFound :=
  ⟨(C6_target_date_lookup
      [⟨5, 2024, ⟨none, none, none, none, none, none, none, none⟩⟩,
       ⟨7, 2024, ⟨none, none, none, none, none, none, none, none⟩⟩]
      7 (.rolling 3)).2
      ⟨7, 2024, ⟨none, none, none, none, none, none, none, none⟩⟩
      (by decide) (by decide) (by decide),
   (C6_target_date_lookup [] 7 (.rolling 3)).1.mpr (by simp)⟩

/-! ## Core: TrendSignalDetector (spec section 4.3) -/

/-- Directional arrow of a stat signal. -/
inductive Arrow
  | up
  | down
  deriving DecidableEq, Repr

/-- Mean of the per-game season values of a stat. -/
def seasonMean (vals : List ℚ) : ℚ :=
  vals.sum / (vals.length : ℚ)

/-- Variance of the per-game season values of a stat — the square of the
season standard deviation. -/
def seasonVar (vals : List ℚ) : ℚ :=
  ((vals.map fun v => (v - seasonMean vals) ^ 2).sum) / (vals.length : ℚ)

/-- Modelled from the spec (4.3): the arrow decision for a deviation `d` from
the season mean and a season variance `var` (`backend/compute.py` is missing
from the sources).  Over a positive variance this is the decidable rational
form of the z-score rule: `z > 1` means a positive deviation whose square
exceeds the variance, `z < -1` a negative one. -/
def arrowOf (d var : ℚ) : Option Arrow :=
  if 0 < d ∧ var < d ^ 2 then some .up
  else if d < 0 ∧ var < d ^ 2 then some .down
  else none

/-- Modelled from the spec (4.3): the per-stat arrow, from the rolling value
and the per-game season values of the stat. -/
def statArrow (rolling : ℚ) (seasonVals : List ℚ) : Option Arrow :=
  arrowOf (rolling - seasonMean seasonVals) (seasonVar seasonVals)

/-- The spec's z-score of a stat: (rolling − season_mean) / season_stddev,
with the standard deviation the real square root of the variance. -/
noncomputable def zscore (rolling : ℚ) (vals : List ℚ) : ℝ :=
  ((rolling : ℝ) - ((seasonMean vals : ℚ) : ℝ)) /
    Real.sqrt ((seasonVar vals : ℚ) : ℝ)

theorem arrowOf_up_iff (d var : ℚ) (hvar : 0 < var) :
    arrowOf d var = some .up ↔ 1 < (d : ℝ) / Real.sqrt ((var : ℚ) : ℝ) := by
  have hvR : (0 : ℝ) < ((var : ℚ) : ℝ) := by exact_mod_cast hvar
  have hσ : 0 < Real.sqrt ((var : ℚ) : ℝ) := Real.sqrt_pos.mpr hvR
  rw [one_lt_div hσ]
  constructor
  · intro h
    by_cases h1 : 0 < d ∧ var < d ^ 2
    · have hd0 : (0 : ℝ) < (d : ℝ) := by exact_mod_cast h1.1
      rw [Real.sqrt_lt' hd0]
      exact_mod_cast h1.2
    · exfalso
      unfold arrowOf at h
      rw [if_neg h1] at h
      by_cases h2 : d < 0 ∧ var < d ^ 2
      · rw [if_pos h2] at h
        simp at h
      · rw [if_neg h2] at h
        simp at h
  · intro h
    have hd0 : (0 : ℝ) < (d : ℝ) := lt_trans hσ h
    have h1 : 0 < d := by exact_mod_cast hd0
    have h2 : var < d ^ 2 := by exact_mod_cast (Real.sqrt_lt' hd0).mp h
    simp [arrowOf, h1, h2]

theorem arrowOf_down_iff (d var : ℚ) (hvar : 0 < var) :
    arrowOf d var = some .down ↔ (d : ℝ) / Real.sqrt ((var : ℚ) : ℝ) < -1 := by
  have hvR : (0 : ℝ) < ((var : ℚ) : ℝ) := by exact_mod_cast hvar
  have hσ : 0 < Real.sqrt ((var : ℚ) : ℝ) := Real.sqrt_pos.mpr hvR
  have key : (d : ℝ) / Real.sqrt ((var : ℚ) : ℝ) < -1 ↔
      Real.sqrt ((var : ℚ) : ℝ) < -(d : ℝ) := by
    rw [div_lt_iff₀ hσ]
    constructor <;> intro h <;> linarith
  rw [key]
  constructor
  · intro h
    by_cases h2 : d < 0 ∧ var < d ^ 2
    · have hd0 : (0 : ℝ) < -(d : ℝ) := by
        have hdc : (d : ℝ) < 0 := by exact_mod_cast h2.1
        linarith
      rw [Real.sqrt_lt' hd0]
      have h2R : ((var : ℚ) : ℝ) < ((d : ℚ) : ℝ) ^ 2 := by exact_mod_cast h2.2
      calc ((var : ℚ) : ℝ) < ((d : ℚ) : ℝ) ^ 2 := h2R
        _ = (-(d : ℝ)) ^ 2 := by ring
    · exfalso
      unfold arrowOf at h
      rw [if_neg h2]  at h
      by_cases h1 : 0 < d ∧ var < d ^ 2
      · rw [if_pos h1] at h
        simp at h
      · rw [if_neg h1] at h
        simp at h
  · intro h
    have hd0 : (0 : ℝ) < -(d : ℝ) := lt_trans hσ h
    have h1 : d < 0 := by
      have hdc : (d : ℝ) < 0 := by linarith
      exact_mod_cast hdc
    have h2 : var < d ^ 2 := by
      have hsq := (Real.sqrt_lt' hd0).mp h
      have hsq2 : ((var : ℚ) : ℝ) < ((d : ℚ) : ℝ) ^ 2 := by nlinarith [hsq]
      exact_mod_cast hsq2
    have hng : ¬ (0 < d) := not_lt.mpr h1.le
    simp [arrowOf, hng, h1, h2]

/-! ## Theorems for the signal claims -/

/-- Claim C8: over a season with positive variance, the per-stat arrow is
"up" exactly when the z-score (rolling − season_mean) / season_stddev exceeds
1, "down" exactly when it is below −1, and there is no arrow exactly when
−1 ≤ z ≤ 1. -/
theorem C8_arrow_iff_zscore (rolling : ℚ) (vals : List ℚ)
    (hvar : 0 < seasonVar vals) :
    (statArrow rolling vals = some .up ↔ 1 < zscore rolling vals)
    ∧ (statArrow rolling vals = some .down ↔ zscore rolling vals < -1)
    ∧ (statArrow rolling vals = none ↔
        -1 ≤ zscore rolling vals ∧ zscore rolling vals ≤ 1) := by
  have hz : zscore rolling vals
      = ((rolling - seasonMean vals : ℚ) : ℝ) /
          Real.sqrt ((seasonVar vals : ℚ) : ℝ) := by
    unfold zscore
    push_cast
    ring
  have hupS : statArrow rolling vals = some .up ↔ 1 < zscore rolling vals := by
    rw [hz]
    unfold statArrow
    exact arrowOf_up_iff (rolling - seasonMean vals) (seasonVar vals) hvar
  have hdownS : statArrow rolling vals = some .down ↔
      zscore rolling vals < -1 := by
    rw [hz]
    unfold statArrow
    exact arrowOf_down_iff (rolling - seasonMean vals) (seasonVar vals) hvar
  refine ⟨hupS, hdownS, ?_, ?_⟩
  · intro h
    refine ⟨?_, ?_⟩
    · by_contra hc
      have hlt : zscore rolling vals < -1 := lt_of_not_ge hc
      have := hdownS.mpr hlt
      rw [h] at this
      cases this
    · by_contra hc
      have hlt : 1 < zscore rolling vals := lt_of_not_ge hc
      have := hupS.mpr hlt
      rw [h] at this
      cases this
  · rintro ⟨h1, h2⟩
    cases harr : statArrow rolling vals with
    | none => rfl
    | some a =>
        cases a with
        | up =>
            have := hupS.mp harr
            linarith
        | down =>
            have := hdownS.mp harr
            linarith

/-- Witness for C8 with season values [0, 2] (mean 1, variance 1) and rolling
value 3: the arrow is "up" exactly because the z-score 2 exceeds 1. -/
theorem C8_witness :
    0 < seasonVar [0, 2]
    ∧ (statArrow 3 [0, 2] = some .up ↔ 1 < zscore 3 [0, 2]) :=
  ⟨by norm_num [seasonVar, seasonMean],
   (C8_arrow_iff_zscore 3 [0, 2] (by norm_num [seasonVar, seasonMean])).1⟩

/-! ## Core: correlation matrix of the DiagnosticsSuite (spec section 4.6) -/

/-- Mean of a data column. -/
def colMean (xs : List ℚ) : ℚ :=
  xs.sum / (xs.length : ℚ)

/-- The sum of products of paired deviations from the column means — the
unnormalized covariance of two columns, and for a column with itself the sum
of squared deviations. -/
def sCov (xs ys : List ℚ) : ℚ :=
  ((xs.zip ys).map fun p => (p.1 - colMean xs) * (p.2 - colMean ys)).sum

/-- Modelled from the spec (4.6): one Pearson correlation entry over two
columns — the covariance sum divided by the square root of the product of
each column's squared-deviation sum (`backend/compute.py` is missing from
the sources). -/
noncomputable def corrEntry (xs ys : List ℚ) : ℝ :=
  ((sCov xs ys : ℚ) : ℝ) /
    Real.sqrt (((sCov xs xs : ℚ) : ℝ) * ((sCov ys ys : ℚ) : ℝ))

/-- Modelled from the spec (4.6): the full Pearson correlation matrix over
the data columns; entry (i, j) correlates column i with column j. -/
noncomputable def corrValues (cols : List (List ℚ)) (i j : ℕ) : ℝ :=
  corrEntry (cols.getD i []) (cols.getD j [])

theorem sCov_comm_aux (a b : ℚ) : ∀ (xs ys : List ℚ),
    ((xs.zip ys).map fun p => (p.1 - a) * (p.2 - b)).sum
      = ((ys.zip xs).map fun p => (p.1 - b) * (p.2 - a)).sum
  | [], ys => by simp
  | x :: xs, [] => by simp
  | x :: xs, y :: ys => by
      simp only [List.zip_cons_cons, List.map_cons, List.sum_cons,
        sCov_comm_aux a b xs ys]
      ring

theorem sCov_comm (xs ys : List ℚ) : sCov xs ys = sCov ys xs :=
  sCov_comm_aux (colMean xs) (colMean ys) xs ys

theorem sCov_self_aux (a : ℚ) : ∀ (xs : List ℚ),
    ((xs.zip xs).map fun p => (p.1 - a) * (p.2 - a)).sum
      = (xs.map fun x => (x - a) ^ 2).sum
  | [] => by simp
  | x :: xs => by
      simp only [List.zip_cons_cons, List.map_cons, List.sum_cons,
        sCov_self_aux a xs]
      ring

theorem sCov_self_nonneg (xs : List ℚ) : 0 ≤ sCov xs xs := by
  unfold sCov
  rw [sCov_self_aux (colMean xs) xs]
  apply List.sum_nonneg
  intro a ha
  obtain ⟨x, hx, rfl⟩ := List.mem_map.mp ha
  positivity

/-! ## Theorems for the correlation claim -/

/-- Counterexample for C7 as stated: over the single constant numeric column
`[1, 1]`, the Pearson diagonal entry is the indeterminate 0 / √0 — not 1 —
because the column's squared-deviation sum is zero.  (In floating point the
same entry is NaN, likewise different from 1.0.) -/
theorem C7_counterexample : corrValues [[1, 1]] 0 0 ≠ 1 := by
  have h0 : sCov [(1 : ℚ), 1] [(1 : ℚ), 1] = 0 := by
    norm_num [sCov, colMean]
  unfold corrValues corrEntry
  simp only [List.getD_cons_zero]
  rw [h0]
  norm_num

/-- Claim C7 amended: the reported Pearson correlation matrix satisfies
`values[i][j] = values[j][i]` for all index pairs, and its diagonal entry at
column i is exactly 1 whenever column i's squared-deviation sum is nonzero
(i.e. the column is not constant); for a constant column the diagonal entry
is the indeterminate 0 / √0 rather than 1. -/
theorem C7_corr_symmetric_unit_diag (cols : List (List ℚ)) (i j : ℕ) :
    corrValues cols i j = corrValues cols j i
    ∧ (sCov (cols.getD i []) (cols.getD i []) ≠ 0 → corrValues cols i i = 1) := by
  constructor
  · unfold corrValues corrEntry
    rw [sCov_comm (cols.getD i []) (cols.getD j []), mul_comm]
  · intro h
    unfold corrValues corrEntry
    have hnn : 0 ≤ sCov (cols.getD i []) (cols.getD i []) := sCov_self_nonneg _
    have hnnR : (0 : ℝ) ≤ ((sCov (cols.getD i []) (cols.getD i []) : ℚ) : ℝ) := by
      exact_mod_cast hnn
    rw [Real.sqrt_mul_self hnnR]
    rw [div_self]
    exact_mod_cast h

/-- Witness for the amended C7 over the non-constant column `[0, 1]`: the
squared-deviation sum is nonzero and the diagonal entry is exactly 1. -/
theorem C7_witness :
    sCov [(0 : ℚ), 1] [(0 : ℚ), 1] ≠ 0 ∧ corrValues [[0, 1]] 0 0 = 1 :=
  ⟨by norm_num [sCov, colMean],
   (C7_corr_symmetric_unit_diag [[0, 1]] 0 0).2
     (by show sCov [(0 : ℚ), 1] [(0 : ℚ), 1] ≠ 0; norm_num [sCov, colMean])⟩

/-! ## Theorems for the frontend claims -/

/-- Claim C2: for every baseline list of nullable per-game values, the
computed trend average equals the arithmetic mean of exactly the non-null
values, and it is null if and only if the baseline is empty or every value in
it is null (equivalently: every member is null). -/
theorem C2_trendAvg_mean_of_nonnull (vals : List (Option ℚ)) :
    (trendAvg vals = none ↔ ∀ v ∈ vals, v = none)
    ∧ (∀ m, trendAvg vals = some m →
        m = (vals.filterMap id).sum / ((vals.filterMap id).length : ℚ)) := by
  constructor
  · unfold trendAvg
    by_cases h : (vals.filterMap id).length = 0
    · simp only [h, if_true]
      have hnil : vals.filterMap id = [] := List.length_eq_zero.mp h
      rw [List.filterMap_eq_nil_iff] at hnil
      simpa using hnil
    · simp only [h, if_false]
      have hnil : ¬ vals.filterMap id = [] := fun hn => h (by simp [hn])
      rw [List.filterMap_eq_nil_iff] at hnil
      simpa using hnil
  · intro m hm
    unfold trendAvg at hm
    by_cases h : (vals.filterMap id).length = 0
    · simp [h] at hm
    · simp only [h, if_false, Option.some.injEq] at hm
      exact hm.symm

/-- Witness for C2 at the concrete baseline `[4, null, 2]`. -/
theorem C2_witness :
    (3 : ℚ) = ([some (4 : ℚ), none, some 2].filterMap id).sum /
        (([some (4 : ℚ), none, some 2].filterMap id).length : ℚ) :=
  (C2_trendAvg_mean_of_nonnull [some 4, none, some 2]).2 3 (by simp [trendAvg]; norm_num)

/-- Claim C3: the `MetricCard` delta equals `today - trend_avg` when both
operands are defined, and is null whenever either operand is null; it is never
computed from a partial pair. -/
theorem C3_delta_total_pair (t a : ℚ) (o : Option ℚ) :
    metricDelta (some t) (some a) = some (t - a)
    ∧ metricDelta none o = none
    ∧ metricDelta o none = none := by
  refine ⟨rfl, rfl, ?_⟩
  cases o <;> rfl

/-- Claim C9: in the `GameLog` and league-table sort comparators, a null sort
key is ordered after every non-null key under ascending sort (the comparator
returns a positive number with the null key first, a negative number with the
null key second), before every non-null key under descending sort, and two
null keys compare equal. -/
theorem C9_null_keys_sort_last {α : Type} (nn nn2 : α → α → ℚ) (v w : α) :
    (0 < gameLogCompare nn .asc none (some v)
      ∧ gameLogCompare nn .asc (some v) none < 0
      ∧ gameLogCompare nn .desc none (some v) < 0
      ∧ 0 < gameLogCompare nn .desc (some v) none
      ∧ gameLogCompare nn .asc none none = 0
      ∧ gameLogCompare nn .desc none none = 0)
    ∧ (0 < leagueTableCompare nn2 .asc none (some w)
      ∧ leagueTableCompare nn2 .asc (some w) none < 0
      ∧ leagueTableCompare nn2 .desc none (some w) < 0
      ∧ 0 < leagueTableCompare nn2 .desc (some w) none
      ∧ leagueTableCompare nn2 .asc none none = 0
      ∧ leagueTableCompare nn2 .desc none none = 0) := by
  refine ⟨⟨?_, ?_, ?_, ?_, rfl, rfl⟩, ⟨?_, ?_, ?_, ?_, rfl, rfl⟩⟩ <;>
    simp [gameLogCompare, leagueTableCompare, sortMult]

/-- Claim C10: the `MetricCard` delta badge is good (green) exactly when the
strict positivity of delta agrees with `higherIsBetter`; in particular a delta
of exactly 0 is classified bad (red) when `higherIsBetter` is true and good
(green) when `higherIsBetter` is false. -/
theorem C10_zero_delta_badge (hib : Bool) (d : ℚ) :
    (badgeColor hib (some d) = .green ↔ ((0 < d) ↔ hib = true))
    ∧ badgeColor true (some 0) = .red
    ∧ badgeColor false (some 0) = .green := by
  refine ⟨?_, rfl, rfl⟩
  cases hib <;> by_cases hd : (0 : ℚ) < d <;>
    simp [badgeColor, deltaGood, hd]

/-- Witness for C10 at the concrete delta 0 with `higherIsBetter = true`:
the badge is not green because `0 < 0` disagrees with `true`. -/
theorem C10_witness :
    badgeColor true (some 0) = .green ↔ ((0 : ℚ) < 0 ↔ True) := by
  simpa using (C10_zero_delta_badge true 0).1

end MLB
